import Mathlib

/-!
Verification of the `topple` runtime (`src/runtime.py`, `src/biscuit.py`) and of
the accumulator-planning discipline visible in the generated-code fixtures
(`src/compiler/testdata/expected/...`).

The Python runtime is shallowly embedded: Python values that the runtime
dispatches on (`None`, `bool`, `str`, `int`, anything else) become the
inductive `Value`; the element tree built by `el` / `fragment` becomes the
inductive `Node`; stateful caching (`Element._html_cache`,
`BaseView._render_cache` / `_html_cache`, the shared default `Writer`) becomes
explicit state passing.
-/

namespace Topple

/-- A Python value as the runtime's dispatch sees it: `None`, a `bool`
(`is True` / `is False` identity tests only ever match the two bool
singletons), a `str`, an `int`, or any other object represented by the string
its `str()` returns. -/
inductive Value where
  | none
  | bool (b : Bool)
  | str (s : String)
  | int (n : Int)
  | other (s : String)
  deriving DecidableEq, Repr

/-- Python `str(value)`: `str(True) = "True"`, `str(False) = "False"`,
`str` on a string is the identity, ints print in decimal, `str(None) = "None"`,
and any other object yields its own stringification. -/
def pyStr : Value → String
  | .none => "None"
  | .bool true => "True"
  | .bool false => "False"
  | .str s => s
  | .int n => toString n
  | .other s => s

/-- One character's image under `html.escape(·, quote=True)`.
CPython's `html.escape` replaces `&` first and then `<`, `>`, `"`, `'`;
since none of the inserted entity texts contains a later-replaced character,
the sequential replacement is exactly this independent per-character map. -/
def escapeChar (c : Char) : String :=
  if c = '&' then "&amp;"
  else if c = '<' then "&lt;"
  else if c = '>' then "&gt;"
  else if c = Char.ofNat 34 then "&quot;"
  else if c = Char.ofNat 39 then "&#x27;"
  else String.singleton c

/-- `html.escape(s, quote=True)`: every occurrence of `&`, `<`, `>`, `"`, `'`
replaced by its entity, all other characters kept. -/
def htmlEscape (s : String) : String :=
  s.data.foldr (fun c acc => escapeChar c ++ acc) ""

/-- `escape(raw)` from `src/runtime.py`: `None` becomes the empty string, a
`str` is HTML-entity-escaped, everything else is `str(raw)` unescaped. -/
def escape : Value → String
  | .none => ""
  | .str s => htmlEscape s
  | v => pyStr v

/-- `_render_attrs(attrs)` from `src/runtime.py`; `attrs` is the dict in
insertion order. A `False` or `None` value is skipped, `True` renders the bare
name, anything else renders ` name="escape(value)"`. -/
def render_attrs : List (String × Value) → String
  | [] => ""
  | (key, val) :: rest =>
    (match val with
     | .bool false => ""
     | .none => ""
     | .bool true => " " ++ key
     | v => " " ++ key ++ "=\"" ++ escape v ++ "\"") ++ render_attrs rest

/-- The element tree the runtime builds. `elem` is an `Element` built by
`el(tag, content, attrs, self_close)` (with `content` already normalised to a
child list), `frag` is a `FragmentElement` built by `fragment(children)`,
`text` is a literal (str/int/bool/...) child, and `nil` is a Python `None`
child, which rendering skips. -/
inductive Node where
  | elem (tag : String) (attrs : List (String × Value)) (self_close : Bool)
      (children : List Node)
  | frag (children : List Node)
  | text (v : Value)
  | nil
  deriving Repr

mutual

/-- `Element.__str__` / `FragmentElement.__str__` from `src/runtime.py`, as the
pure rendering function they compute (the `_html_cache` memoisation is modelled
separately on mutable element objects). A self-closing element renders
`<tag attrs />` ignoring children; otherwise the children are rendered in
order between the open and close tags; a fragment renders just its children;
a literal child is passed through `escape`; a `None` child is skipped. -/
def renderNode : Node → String
  | .elem tag attrs self_close children =>
    if self_close then "<" ++ tag ++ render_attrs attrs ++ " />"
    else
      "<" ++ tag ++ render_attrs attrs ++ ">" ++ renderNodes children
        ++ "</" ++ tag ++ ">"
  | .frag children => renderNodes children
  | .text v => escape v
  | .nil => ""

/-- The child loop shared by `Element.__str__` and `FragmentElement.__str__`:
concatenate the children's renderings in list order. -/
def renderNodes : List Node → String
  | [] => ""
  | c :: cs => renderNode c ++ renderNodes cs

end

example : renderNode (.elem "h1" [] false [.text (.str "A")]) = "<h1>A</h1>" := rfl

example : escape (.str "<script>") = "&lt;script&gt;" := rfl

example : render_attrs [("class", .str "btn"), ("disabled", .bool true), ("hidden", .bool false)]
    = " class=\"btn\" disabled" := rfl

/-- No character produced by `escapeChar` is a raw `<`, `>`, `"` or `'`. -/
lemma escapeChar_no_specials (c : Char) :
    ∀ d ∈ (escapeChar c).data,
      d ≠ '<' ∧ d ≠ '>' ∧ d ≠ Char.ofNat 34 ∧ d ≠ Char.ofNat 39 := by
  unfold escapeChar
  split
  · decide
  · split
    · decide
    · split
      · decide
      · split
        · decide
        · split
          · decide
          · rename_i h1 h2 h3 h4 h5
            intro d hd
            have hc : (String.singleton c).data = [c] := rfl
            rw [hc, List.mem_singleton] at hd
            subst hd
            exact ⟨h2, h3, h4, h5⟩

/-- `htmlEscape` never leaves a raw `<`, `>`, `"` or `'` in its output. -/
lemma htmlEscape_no_specials (s : String) :
    ∀ c ∈ (htmlEscape s).data,
      c ≠ '<' ∧ c ≠ '>' ∧ c ≠ Char.ofNat 34 ∧ c ≠ Char.ofNat 39 := by
  unfold htmlEscape
  induction s.data with
  | nil => intro c hc; simp at hc
  | cons a l ih =>
    intro c hc
    simp only [List.foldr_cons, String.data_append] at hc
    rcases List.mem_append.mp hc with h | h
    · exact escapeChar_no_specials a c h
    · exact ih c h

/-- C1: `escape` maps `None` to the empty string, a `str` to its
HTML-entity-escaped form `htmlEscape` (whose output contains no raw `<`, `>`,
`"` or `'`), and every other value (`int`, `bool`, any other object) to its
plain unescaped stringification `str(value)`. -/
theorem C1_escape_cases :
    escape .none = ""
    ∧ (∀ s : String, escape (.str s) = htmlEscape s
        ∧ ∀ c ∈ (escape (.str s)).data,
            c ≠ '<' ∧ c ≠ '>' ∧ c ≠ Char.ofNat 34 ∧ c ≠ Char.ofNat 39)
    ∧ (∀ n : Int, escape (.int n) = pyStr (.int n))
    ∧ (∀ b : Bool, escape (.bool b) = pyStr (.bool b))
    ∧ (∀ s : String, escape (.other s) = pyStr (.other s)) :=
  ⟨rfl,
   fun s => ⟨rfl, htmlEscape_no_specials s⟩,
   fun _ => rfl,
   fun b => by cases b <;> rfl,
   fun _ => rfl⟩

/-- Witness: `C1_escape_cases` applied at the concrete string `"<"` and the
character `l` of its escaped form `"&lt;"`, discharging the membership
hypothesis there. -/
theorem C1_escape_cases_witness :
    'l' ∈ (escape (.str "<")).data ∧ 'l' ≠ '<' :=
  ⟨by decide, ((C1_escape_cases.2.1 "<").2 'l' (by decide)).1⟩

/-- C2: attribute rendering treats each attribute independently in dict
order: a `None` or `False` value contributes nothing (the attribute is
omitted), `True` contributes the bare attribute name, and any other value `v`
contributes ` name="escape(v)"`. -/
theorem C2_render_attrs_cases (attrs : List (String × Value)) :
    render_attrs attrs
      = attrs.foldr (fun kv acc =>
          (match kv.2 with
           | .none => ""
           | .bool false => ""
           | .bool true => " " ++ kv.1
           | v => " " ++ kv.1 ++ "=\"" ++ escape v ++ "\"") ++ acc) "" := by
  induction attrs with
  | nil => rfl
  | cons kv rest ih =>
    obtain ⟨key, val⟩ := kv
    simp only [render_attrs, List.foldr_cons, ih]
    rcases val with _ | b | _ | _ | _
    · rfl
    · cases b <;> rfl
    · rfl
    · rfl
    · rfl

/-- Witness: `C2_render_attrs_cases` evaluated at a concrete dict exercising
all four attribute-value shapes. -/
theorem C2_render_attrs_cases_witness :
    render_attrs
        [("class", .str "btn"), ("disabled", .bool true),
         ("hidden", .bool false), ("id", .none), ("tabindex", .int 3)]
      = " class=\"btn\" disabled tabindex=\"3\"" := by
  rw [C2_render_attrs_cases]
  rfl

/-- C5: a fragment renders as exactly the concatenation of its children's
renderings in list order, with no wrapper tag; in particular
`str(fragment([el("h1", "A"), el("p", "B")]))` is `"<h1>A</h1><p>B</p>"`. -/
theorem C5_fragment_concat :
    (∀ cs : List Node,
        renderNode (.frag cs) = cs.foldr (fun c acc => renderNode c ++ acc) "")
    ∧ renderNode (.frag [.elem "h1" [] false [.text (.str "A")],
          .elem "p" [] false [.text (.str "B")]]) = "<h1>A</h1><p>B</p>" := by
  constructor
  · intro cs
    show renderNodes cs = _
    induction cs with
    | nil => rfl
    | cons c cs ih => rw [renderNodes, List.foldr_cons, ih]
  · rfl

/-- `MultiRoot._render` from the generated fixture
`src/compiler/testdata/expected/views/multiple_root_elements.py`: the
accumulator `_view_children_1000` receives `el("h1", escape(self.title))`,
`el("p", escape(self.content))` and a static `div`/`span`, and the method
returns `fragment(_view_children_1000)`. The dynamic text is passed through
`escape` at the `el` call site, so the element's child is the
already-escaped string. -/
def MultiRoot_render (title content : String) : Node :=
  .frag
    [ .elem "h1" [] false [.text (.str (escape (.str title)))]
    , .elem "p" [] false [.text (.str (escape (.str content)))]
    , .elem "div" [] false [.elem "span" [] false [.text (.str "Additional content")]] ]

set_option maxRecDepth 8192 in
/-- C3: the generated code escapes interpolated text at the `el` call site and
`Element.__str__` escapes string children again, so for the input
`"<script>"` the rendered output is the twice-escaped
`&amp;lt;script&amp;gt;` — it does contain no unescaped `<script>`, but it
also does not contain the once-escaped `&lt;script&gt;` the claim requires. -/
theorem C3_text_escaped_twice :
    renderNode (MultiRoot_render "<script>" "B")
      = "<h1>&amp;lt;script&amp;gt;</h1><p>B</p><div><span>Additional content</span></div>"
    ∧ ¬ ("<script>".data <:+: (renderNode (MultiRoot_render "<script>" "B")).data)
    ∧ ¬ ("&lt;script&gt;".data <:+: (renderNode (MultiRoot_render "<script>" "B")).data)
    ∧ ("&amp;lt;script&amp;gt;".data <:+: (renderNode (MultiRoot_render "<script>" "B")).data) := by
  refine ⟨rfl, ?_, ?_, ?_⟩ <;> decide

/-- The first `el("input", ...)` of `BooleanAttributes._render` from the
fixture `src/compiler/testdata/expected/attributes/boolean_attributes.py`:
every boolean attribute value, even the literal `False`/`True`, is wrapped in
`escape(...)` at the call site. -/
def BooleanAttributes_input1 (is_editable is_required : Bool) : Node :=
  .elem "input"
    [ ("type", .str "text")
    , ("readonly", .str (escape (.bool (!is_editable))))
    , ("required", .str (escape (.bool is_required)))
    , ("disabled", .str (escape (.bool false)))
    , ("autofocus", .str (escape (.bool true))) ]
    false [.text (.str "")]

/-- C4: a dynamic boolean routed through `escape` becomes the string
`"True"`/`"False"`, so `_render_attrs` sees a string, not a boolean, and
renders `name="True"` instead of a bare name and `name="False"` instead of
omitting the attribute; the `BooleanAttributes` fixture's first `input`
renders accordingly. -/
theorem C4_dynamic_bool_attr (name : String) (b : Bool) :
    escape (.bool b) = (if b then "True" else "False")
    ∧ render_attrs [(name, .str (escape (.bool b)))]
        = " " ++ name ++ "=\"" ++ (if b then "True" else "False") ++ "\""
    ∧ renderNode (BooleanAttributes_input1 true true)
        = "<input type=\"text\" readonly=\"False\" required=\"True\" disabled=\"False\" autofocus=\"True\"></input>" := by
  have hT : escape (.bool true) = "True" := rfl
  have hF : escape (.bool false) = "False" := rfl
  have hsT : escape (.str "True") = "True" := rfl
  have hsF : escape (.str "False") = "False" := rfl
  cases b
  · exact ⟨hF, by simp [render_attrs, hF, hsF], rfl⟩
  · exact ⟨hT, by simp [render_attrs, hT, hsT], rfl⟩

/-- The result of `BaseView._render()`: an `Element` or a plain string. -/
inductive RenderResult where
  | elem (e : Node)
  | str (s : String)

/-- The caching state of one `BaseView` instance: `_render_cache` and
`_html_cache` (a not-yet-created attribute and `None` both model as
`Option.none`, which is exactly how the lazy `hasattr` initialisation in
`src/runtime.py` treats them). -/
structure ViewState where
  render_cache : Option RenderResult
  html_cache : Option String

/-- Python `str` applied to a `_render` result: an `Element` goes through
`Element.__str__`, a string is returned unchanged. -/
def strOfResult : RenderResult → String
  | .elem e => renderNode e
  | .str s => s

/-- `BaseView._get_rendered` from `src/runtime.py`: return the cached
`_render_cache` if set, otherwise call `_render()` (whose return value is
`body`) and store it. The `Nat` counts how many times `_render()` was
invoked by this call. -/
def get_rendered (body : RenderResult) (st : ViewState) :
    RenderResult × ViewState × Nat :=
  match st.render_cache with
  | some r => (r, st, 0)
  | none => (body, ⟨some body, st.html_cache⟩, 1)

/-- The outcome of one `BaseView.render()` call: the returned string, the
instance's state afterwards, how many times `_render()` ran, and how many
times the result was serialised with `str(...)`. -/
structure RenderCall where
  output : String
  state : ViewState
  renderCalls : Nat
  strCalls : Nat

/-- `BaseView.render` from `src/runtime.py`: return the cached `_html_cache`
if set; otherwise obtain the `_render` result through `_get_rendered`,
serialise it with `str(...)`, cache and return the string. -/
def render (body : RenderResult) (st : ViewState) : RenderCall :=
  match st.html_cache with
  | some h => ⟨h, st, 0, 0⟩
  | none =>
    match get_rendered body st with
    | (r, st1, n) => ⟨strOfResult r, ⟨st1.render_cache, some (strOfResult r)⟩, n, 1⟩

/-- C6: on a fresh instance the first `render()` invokes `_render()` exactly
once, serialises its result once, and returns `str` of it; a second
`render()` on the resulting state returns the identical cached string with
zero further `_render()` invocations and zero further serialisations, leaving
the state unchanged. -/
theorem C6_render_caches (body : RenderResult) :
    (render body ⟨none, none⟩).renderCalls = 1
    ∧ (render body ⟨none, none⟩).strCalls = 1
    ∧ (render body ⟨none, none⟩).output = strOfResult body
    ∧ render body (render body ⟨none, none⟩).state
        = ⟨(render body ⟨none, none⟩).output, (render body ⟨none, none⟩).state, 0, 0⟩ :=
  ⟨rfl, rfl, rfl, rfl⟩

/-- An argument to `render_child`: Python `None`, a `BaseView` (represented
by the value its cached `_get_rendered()` returns), an `Element`, or a
literal value. -/
inductive ChildArg where
  | none
  | view (r : RenderResult)
  | elem (n : Node)
  | lit (v : Value)

/-- `render_child(child)` from `src/runtime.py`: `None` becomes `""`, a
`BaseView` yields its `_get_rendered()` result, an `Element` is returned
unchanged, and a literal becomes `str(child)` (escaped later, when placed
inside an `Element`). -/
def render_child : ChildArg → RenderResult
  | .none => .str ""
  | .view r => r
  | .elem n => n |> RenderResult.elem
  | .lit v => .str (pyStr v)

/-- Placing a `render_child` result into a child list: an `Element` is the
node itself, a string becomes a literal text child. -/
def childNode : RenderResult → Node
  | .elem n => n
  | .str s => .text (.str s)

/-- `Layout._render` from
`src/compiler/testdata/expected/slots/basic_slots.py`: each slot position
holds `render_child(self.<slot>) if self.<slot> is not None else <fallback>`,
inside `el("div", [...], {"class": "layout"})`. -/
def Layout_render (children header footer : ChildArg) : Node :=
  .elem "div" [("class", .str "layout")] false
    [ .elem "header" [] false
        [match header with
         | .none => .elem "h1" [] false [.text (.str "Default Header")]
         | h => childNode (render_child h)]
    , .elem "main" [] false
        [match children with
         | .none => .elem "p" [] false [.text (.str "Default content")]
         | c => childNode (render_child c)]
    , .elem "footer" [] false
        [match footer with
         | .none => .elem "p" [] false [.text (.str "Default footer")]
         | f => childNode (render_child f)] ]

/-- C7: with no caller-supplied slots (`None` defaults) the `Layout`
component renders exactly its author's fallback markup, not an empty result;
with a supplied header element `h` the built tree holds exactly `h` as the
header's sole child — the fallback is neither emitted nor merged — so the
supplied content alone is rendered in that slot, as the `App`-style supplied
fragment shows concretely. -/
theorem C7_slot_fallback (h : Node) :
    renderNode (Layout_render .none .none .none)
      = "<div class=\"layout\"><header><h1>Default Header</h1></header><main><p>Default content</p></main><footer><p>Default footer</p></footer></div>"
    ∧ Layout_render .none (.elem h) .none
      = .elem "div" [("class", .str "layout")] false
          [ .elem "header" [] false [h]
          , .elem "main" [] false [.elem "p" [] false [.text (.str "Default content")]]
          , .elem "footer" [] false [.elem "p" [] false [.text (.str "Default footer")]] ]
    ∧ renderNode (Layout_render .none
          (.elem (.frag [.elem "h1" [] false [.text (.str "Custom Header")]])) .none)
      = "<div class=\"layout\"><header><h1>Custom Header</h1></header><main><p>Default content</p></main><footer><p>Default footer</p></footer></div>" :=
  ⟨rfl, rfl, rfl⟩

/-- A mutable `Element` object from `src/runtime.py`: the four public fields
plus the `_html_cache` slot (initially `None` in `__init__`). -/
structure ElementObj where
  tag : String
  attrs : List (String × Value)
  self_close : Bool
  children : List Node
  html_cache : Option String

/-- `Element.__str__` on the mutable object: if `_html_cache` is set return
it unchanged, otherwise render the element (exactly as `renderNode` does on
the element's current fields) and store the result in `_html_cache`. -/
def strElement (e : ElementObj) : String × ElementObj :=
  match e.html_cache with
  | some h => (h, e)
  | none =>
    (renderNode (.elem e.tag e.attrs e.self_close e.children),
     ⟨e.tag, e.attrs, e.self_close, e.children,
      some (renderNode (.elem e.tag e.attrs e.self_close e.children))⟩)

/-- C9: once `str(e)` has run, `_html_cache` holds the produced string, and a
later `str` call on the object — even after `tag`, `attrs`, `self_close` and
`children` have all been reassigned — returns the identical first string and
leaves the cache unchanged: post-first-render mutations never affect the
rendered output. -/
theorem C9_str_cache_survives_mutation (e : ElementObj)
    (t : String) (a : List (String × Value)) (sc : Bool) (cs : List Node) :
    (strElement ⟨t, a, sc, cs, (strElement e).2.html_cache⟩).1 = (strElement e).1
    ∧ (strElement ⟨t, a, sc, cs, (strElement e).2.html_cache⟩).2
        = ⟨t, a, sc, cs, some (strElement e).1⟩ := by
  rcases e with ⟨tag, attrs, self_close, children, cache⟩
  cases cache <;> exact ⟨rfl, rfl⟩

/-- `Writer` from `src/biscuit.py`: a growing string buffer (`StringIO`). -/
structure Writer where
  buffer : String

/-- `Writer.write`: append the content to the buffer. -/
def Writer.write (w : Writer) (content : String) : Writer :=
  ⟨w.buffer ++ content⟩

/-- `Writer.to_string`: the buffer's accumulated contents. -/
def Writer.to_string (w : Writer) : String :=
  w.buffer

/-- `AnonymousView` from `src/biscuit.py`: wraps a render function that
writes to a `Writer`; its effect on the writer is the function itself. -/
structure AnonymousView where
  render_fn : Writer → Writer

/-- `AnonymousView.render_to(writer)`: run the render function on the
writer. -/
def AnonymousView.render_to (v : AnonymousView) (w : Writer) : Writer :=
  v.render_fn w

/-- `AnonymousView.render()` with the `writer` argument left to its default.
`def render(self, writer: Writer = Writer())` evaluates `Writer()` once, at
function definition time, so every parameterless call on every instance
shares that one writer; its state is threaded explicitly here. The call runs
`render_to` on the shared writer and returns `writer.to_string()`, i.e. the
whole accumulated buffer. -/
def renderDefault (v : AnonymousView) (sharedWriter : Writer) :
    String × Writer :=
  ((v.render_to sharedWriter).to_string, v.render_to sharedWriter)

/-- The shared default writer as created at definition time: an empty
buffer. -/
def initialSharedWriter : Writer := ⟨""⟩

/-- C10: with the shared definition-time default writer, a first
parameterless `render()` on a view writing `s` returns `s`, but a second
parameterless call returns `s ++ s` — the first call's output followed by
`s` — and a parameterless call on a *different* view writing `t` returns
`s ++ t`: calls are not independent, the shared buffer accumulates. -/
theorem C10_shared_default_writer (s t : String) :
    (renderDefault ⟨fun w => w.write s⟩ initialSharedWriter).1 = s
    ∧ (renderDefault ⟨fun w => w.write s⟩
        (renderDefault ⟨fun w => w.write s⟩ initialSharedWriter).2).1 = s ++ s
    ∧ (renderDefault ⟨fun w => w.write t⟩
        (renderDefault ⟨fun w => w.write s⟩ initialSharedWriter).2).1 = s ++ t := by
  refine ⟨?_, ?_, ?_⟩ <;>
    simp [renderDefault, initialSharedWriter, AnonymousView.render_to,
      Writer.write, Writer.to_string]

/-- Modelled from the spec: the Scope & Accumulator Planner (§4.2) is not
part of `src/` — the repository ships only its generated-output fixtures — so
the scope structure it numbers is modelled from the spec's words: a scope is
a render body or control-flow branch anchored at a tag, containing its
nested scopes in source order. -/
inductive ScopeTree where
  | node (tag : String) (children : List ScopeTree)

/-- A scope tree annotated with the accumulator id the planner allocated. -/
inductive PlannedScope where
  | node (tag : String) (id : Nat) (children : List PlannedScope)

/-- The fixed stride between consecutively allocated accumulator ids, as the
fixtures show it (1000, 2000, 3000, ...). -/
def stride : Nat := 1000

mutual

/-- Modelled from the spec: ids are drawn from a monotonically increasing
counter seeded per top-level render body and incremented by the fixed
`stride`; a scope takes the counter's current value and its nested scopes
are numbered in recursive descent afterwards. -/
def assignIds : ScopeTree → Nat → PlannedScope × Nat
  | .node tag children, counter =>
    (.node tag counter (assignIdsList children (counter + stride)).1,
     (assignIdsList children (counter + stride)).2)

/-- Sibling scopes are numbered left to right, threading the counter. -/
def assignIdsList : List ScopeTree → Nat → List PlannedScope × Nat
  | [], counter => ([], counter)
  | t :: ts, counter =>
    ((assignIds t counter).1 :: (assignIdsList ts (assignIds t counter).2).1,
     (assignIdsList ts (assignIds t counter).2).2)

end

/-- The accumulator variable name `<anchor-tag>_children_<id>` (with the
leading underscore the fixtures show). -/
def accName (tag : String) (id : Nat) : String :=
  "_" ++ tag ++ "_children_" ++ toString id

/-- The id allocated to a planned scope itself. -/
def rootId : PlannedScope → Nat
  | .node _ i _ => i

mutual

/-- All ids inside a planned scope, in allocation (pre-)order. -/
def scopeIds : PlannedScope → List Nat
  | .node _ i children => i :: scopeIdsList children

def scopeIdsList : List PlannedScope → List Nat
  | [] => []
  | p :: ps => scopeIds p ++ scopeIdsList ps

end

mutual

/-- Checks that every nested scope's id is strictly larger than its
enclosing scope's id, recursively. -/
def nestedIncreasing : PlannedScope → Bool
  | .node _ i children => nestedIncreasingList i children

def nestedIncreasingList : Nat → List PlannedScope → Bool
  | _, [] => true
  | i, p :: ps =>
    decide (i < rootId p) && nestedIncreasing p && nestedIncreasingList i ps

end

lemma rootId_mem_scopeIds (p : PlannedScope) : rootId p ∈ scopeIds p := by
  cases p with
  | node tag i children => exact List.mem_cons_self i (scopeIdsList children)

lemma mem_scopeIdsList : ∀ (ps : List PlannedScope) (p : PlannedScope), p ∈ ps →
    ∀ i ∈ scopeIds p, i ∈ scopeIdsList ps := by
  intro ps
  induction ps with
  | nil => intro p hp; cases hp
  | cons q qs ih =>
    intro p hp i hi
    rcases List.mem_cons.mp hp with h | h
    · subst h
      exact List.mem_append.mpr (Or.inl hi)
    · exact List.mem_append.mpr (Or.inr (ih p h i hi))

lemma nestedIncreasingList_of (i : Nat) :
    ∀ ps : List PlannedScope,
      (∀ p ∈ ps, nestedIncreasing p = true ∧ i < rootId p) →
      nestedIncreasingList i ps = true := by
  intro ps
  induction ps with
  | nil => intro _; rfl
  | cons q qs ih =>
    intro hall
    have hq := hall q (List.mem_cons_self q qs)
    have hqs := ih fun p hp => hall p (List.mem_cons_of_mem q hp)
    show (decide (i < rootId q) && nestedIncreasing q && nestedIncreasingList i qs) = true
    rw [hq.1, hqs, decide_eq_true hq.2]
    rfl

mutual

/-- Allocation over one scope seeded at `n`: the counter strictly advances,
every allocated id lies in `[n, final)`, ids strictly increase in allocation
order, the scope itself gets id `n`, and every nested scope's id strictly
exceeds its enclosing scope's. -/
theorem assignIds_bounds (t : ScopeTree) (n : Nat) :
    n < (assignIds t n).2
    ∧ (∀ i ∈ scopeIds (assignIds t n).1, n ≤ i ∧ i < (assignIds t n).2)
    ∧ (scopeIds (assignIds t n).1).Pairwise (· < ·)
    ∧ rootId (assignIds t n).1 = n
    ∧ nestedIncreasing (assignIds t n).1 = true := by
  cases t with
  | node tag children =>
    obtain ⟨h1, h2, h3, h4⟩ := assignIdsList_bounds children (n + stride)
    have hstride : n < n + stride := Nat.lt_add_of_pos_right (by decide)
    refine ⟨lt_of_lt_of_le hstride h1, ?_, ?_, rfl, ?_⟩
    · intro i hi
      rcases List.mem_cons.mp hi with h | h
      · subst h
        exact ⟨Nat.le_refl _, lt_of_lt_of_le hstride h1⟩
      · exact ⟨le_trans (le_of_lt hstride) (h2 i h).1, (h2 i h).2⟩
    · exact List.pairwise_cons.mpr
        ⟨fun i hi => lt_of_lt_of_le hstride (h2 i hi).1, h3⟩
    · refine nestedIncreasingList_of n _ fun p hp => ⟨h4 p hp, ?_⟩
      have hmem := mem_scopeIdsList _ p hp (rootId p) (rootId_mem_scopeIds p)
      exact lt_of_lt_of_le hstride (h2 (rootId p) hmem).1

/-- Allocation over sibling scopes seeded at `n`: counter weakly advances,
ids lie in `[n, final)`, ids strictly increase in allocation order, and every
produced scope satisfies the nested-increase property. -/
theorem assignIdsList_bounds (ts : List ScopeTree) (n : Nat) :
    n ≤ (assignIdsList ts n).2
    ∧ (∀ i ∈ scopeIdsList (assignIdsList ts n).1, n ≤ i ∧ i < (assignIdsList ts n).2)
    ∧ (scopeIdsList (assignIdsList ts n).1).Pairwise (· < ·)
    ∧ (∀ p ∈ (assignIdsList ts n).1, nestedIncreasing p = true) := by
  cases ts with
  | nil =>
    exact ⟨le_refl n, fun i hi => absurd hi (List.not_mem_nil i),
      List.Pairwise.nil, fun p hp => absurd hp (List.not_mem_nil p)⟩
  | cons t ts =>
    obtain ⟨hT1, hT2, hT3, _, hT5⟩ := assignIds_bounds t n
    obtain ⟨hL1, hL2, hL3, hL4⟩ := assignIdsList_bounds ts (assignIds t n).2
    refine ⟨le_trans (le_of_lt hT1) hL1, ?_, ?_, ?_⟩
    · intro i hi
      rcases List.mem_append.mp hi with h | h
      · exact ⟨(hT2 i h).1, lt_of_lt_of_le (hT2 i h).2 hL1⟩
      · exact ⟨le_trans (le_of_lt hT1) (hL2 i h).1, (hL2 i h).2⟩
    · refine List.pairwise_append.mpr ⟨hT3, hL3, ?_⟩
      intro a ha b hb
      exact lt_of_lt_of_le (hT2 a ha).2 (hL2 b hb).1
    · intro p hp
      rcases List.mem_cons.mp hp with h | h
      · subst h; exact hT5
      · exact hL4 p h

end

/-- C8: ids allocated by the (spec-modelled) planner are globally distinct
for any scope tree and seed — in particular no two sibling scopes share an
id — and every nested scope's id strictly exceeds its enclosing scope's id;
on the `EarlyReturnView` scope shape seeded at 1000 the root scope gets id
1000 and the two nested `div` scopes get 2000 and 3000, yielding the
accumulator names `_root_children_1000`, `_div_children_2000` and
`_div_children_3000` of the fixture. -/
theorem C8_accumulator_ids (t : ScopeTree) (seed : Nat) :
    (scopeIds (assignIds t seed).1).Nodup
    ∧ nestedIncreasing (assignIds t seed).1 = true
    ∧ (assignIds (.node "root" [.node "div" [], .node "div" []]) 1000).1
        = .node "root" 1000 [.node "div" 2000 [], .node "div" 3000 []]
    ∧ accName "root" 1000 = "_root_children_1000"
    ∧ accName "div" 2000 = "_div_children_2000"
    ∧ accName "div" 3000 = "_div_children_3000" := by
  obtain ⟨_, _, h3, _, h5⟩ := assignIds_bounds t seed
  exact ⟨h3.imp Nat.ne_of_lt, h5, rfl, rfl, rfl, rfl⟩

end Topple
